import Mathlib

/-!
Verification of the AnalOS patch-management engine against its specification.

The development shallowly embeds the Python sources:
  * `packages/analos/build/modules/patches/series_patches.py`
      (`parse_series`, `get_series_files`, `apply_single_patch`,
       `apply_series_patches_impl`)
  * `packages/analos/build/modules/extract/extract_patch.py`
      (`extract_single_file_patch`)
  * `packages/analos/build/modules/feature/feature.py`
      (`add_or_update_feature`)

Python strings are embedded as `List Char` (written `LC`), so the Python
`str.strip`, `str.startswith`, `in` and `str.split` operations are ordinary
structural recursions.  External processes (git diff / git apply) and helper
modules that are not part of the core sources are modelled as explicit
environment records; each such model is documented at its definition.
-/

/-- Abbreviation for embedded Python strings. -/
abbrev LC := List Char

namespace PyStr

/-- The whitespace class removed by Python `str.strip()`:
space, tab, newline, carriage return, vertical tab, form feed. -/
def pyIsSpace (c : Char) : Bool :=
  c = ' ' || c = '\t' || c = '\n' || c = '\r' || c = '\x0b' || c = '\x0c'

/-- Python `s.rstrip()` restricted to whitespace: drop trailing whitespace. -/
def stripRight (s : LC) : LC :=
  (s.reverse.dropWhile pyIsSpace).reverse

/-- Python `s.strip()`: drop trailing whitespace, then leading whitespace.
(The order of the two sides does not matter; stripping the right side first
makes the head of the result a direct `dropWhile` head.) -/
def pyStrip (s : LC) : LC :=
  (stripRight s).dropWhile pyIsSpace

/-- Python `s.startswith(pre)`. -/
def pyStartsWith (pre s : LC) : Bool :=
  match pre, s with
  | [], _ => true
  | _ :: _, [] => false
  | p :: ps, c :: cs => p = c && pyStartsWith ps cs

/-- Python `sub in s` (substring containment). -/
def containsSub (sub s : LC) : Bool :=
  pyStartsWith sub s ||
    match s with
    | [] => false
    | _ :: cs => containsSub sub cs

/-- Python `s.split(sep)[0]`: the characters before the first occurrence of
`sep`; the whole string when `sep` does not occur. -/
def splitBeforeFirst (sep : LC) (s : LC) : LC :=
  if pyStartsWith sep s then []
  else
    match s with
    | [] => []
    | c :: cs => c :: splitBeforeFirst sep cs

/-- The first character of a `dropWhile` result never satisfies the predicate. -/
theorem dropWhile_head_not (p : α → Bool) (l : List α) (c : α) (cs : List α)
    (h : l.dropWhile p = c :: cs) : p c = false := by
  induction l with
  | nil => simp at h
  | cons a as ih =>
    by_cases hpa : p a
    · rw [List.dropWhile_cons_of_pos hpa] at h
      exact ih h
    · rw [List.dropWhile_cons_of_neg hpa] at h
      cases h
      exact Bool.not_eq_true _ |>.mp hpa

/-- The first character of a stripped string is never whitespace. -/
theorem pyStrip_head_not_space (s : LC) (c : Char) (cs : LC)
    (h : pyStrip s = c :: cs) : pyIsSpace c = false :=
  dropWhile_head_not pyIsSpace (stripRight s) c cs h

end PyStr

open PyStr

namespace Series

/-!
## Series manifests — `series_patches.py`
-/

/-- Embeds the body of the `for line in lines` loop of `parse_series`
(`series_patches.py` lines 57–67): strip the line, skip it when blank or when
it starts with `#`, otherwise truncate at the first `" #"` (inline comment),
re-strip, and yield the result when non-empty. -/
def parseSeriesLine (line : LC) : Option LC :=
  let l := pyStrip line
  if l = [] then none
  else if pyStartsWith ['#'] l then none
  else
    let l2 := if containsSub [' ', '#'] l
                then pyStrip (splitBeforeFirst [' ', '#'] l)
                else l
    if l2 = [] then none else some l2

/-- `parse_series` (`series_patches.py` lines 44–67): yields one parsed patch
path per accepted line of the series file, in file order. -/
def parse_series : List LC → List LC
  | [] => []
  | line :: rest =>
    match parseSeriesLine line with
    | some p => p :: parse_series rest
    | none => parse_series rest

theorem parse_series_eq_filterMap (lines : List LC) :
    parse_series lines = lines.filterMap parseSeriesLine := by
  induction lines with
  | nil => rfl
  | cons l ls ih =>
    unfold parse_series
    cases h : parseSeriesLine l <;> simp [List.filterMap_cons, h, ih]

/-- A blank line (whitespace only) yields nothing. -/
theorem parseSeriesLine_blank (l : LC) (h : pyStrip l = []) :
    parseSeriesLine l = none := by
  unfold parseSeriesLine
  simp [h]

/-- A line whose stripped form begins with `#` yields nothing. -/
theorem parseSeriesLine_comment (l : LC)
    (h : pyStartsWith ['#'] (pyStrip l) = true) :
    parseSeriesLine l = none := by
  unfold parseSeriesLine
  by_cases hb : pyStrip l = [] <;> simp [hb, h]

end Series

namespace Series

/-- Environment for `get_series_files` (`series_patches.py` lines 70–93).
Each field holds the line list of the corresponding manifest file when that
file exists, and `none` when it does not:
`common` is `series_dir / "series"`, `platformFile` is
`series_dir / f"series.{platform}"` for the current platform. -/
structure SeriesDirEnv where
  common : Option (List LC)
  platformFile : Option (List LC)

/-- `get_series_files`: the applicable manifests in order — the common
manifest first (when it exists), then the single platform-specific manifest
(when it exists).  Manifests are represented by their line lists. -/
def get_series_files (env : SeriesDirEnv) : List (List LC) :=
  (match env.common with
   | some ls => [ls]
   | none => []) ++
  (match env.platformFile with
   | some ls => [ls]
   | none => [])

/-- The collection loop of `apply_series_patches_impl`
(`series_patches.py` lines 167–170): all parsed entries of all applicable
manifests, concatenated in manifest order.  (The source also pairs each entry
with its originating series file, used only for logging.) -/
def all_patches (env : SeriesDirEnv) : List LC :=
  ((get_series_files env).map parse_series).flatten

/-- `series_dir / relative_path`. -/
def joinPath (dir rel : LC) : LC := dir ++ '/' :: rel

/-- Environment for the application phase.  The outcomes of the external
`git apply` invocations are modelled as functions of the patch path:
`directOk` is the plain apply
(`git apply --ignore-whitespace --whitespace=nowarn -p1`), `threeWayOk` the
three-way fallback (same flags plus `--3way`).  Per git's semantics,
`git apply --check --ignore-whitespace -p1` — the dry-run command — performs
exactly the direct application logic without writing, so the dry-run branch
consults `directOk` (`--whitespace=nowarn` only silences warnings and does
not change success). -/
structure ApplyEnv where
  dir : SeriesDirEnv
  seriesDir : LC
  artifactExists : LC → Bool
  directOk : LC → Bool
  threeWayOk : LC → Bool

/-- `apply_single_patch` (`series_patches.py` lines 96–141): direct apply,
falling back to the three-way merge apply; succeeds when either succeeds. -/
def apply_single_patch (env : ApplyEnv) (patch_path : LC) : Bool :=
  env.directOk patch_path || env.threeWayOk patch_path

/-- Aggregate result of a series run: the `(applied, failed)` lists returned
by `apply_series_patches_impl`, plus whether any tree-mutating git command
was issued during the run (true exactly when a non-`--check` apply ran). -/
structure RunResult where
  applied : List LC
  failed : List LC
  mutated : Bool
  deriving DecidableEq, Repr

/-- The per-entry loop of `apply_series_patches_impl`
(`series_patches.py` lines 183–222): a missing artifact records a failure and
processing continues; otherwise the dry-run branch runs the `--check` command
and the real branch runs `apply_single_patch`; the entry's `patch_path` is
appended to exactly one of the two lists. -/
def applyLoop (env : ApplyEnv) (dry_run : Bool) : List LC → RunResult
  | [] => ⟨[], [], false⟩
  | rel :: rest =>
    let p := joinPath env.seriesDir rel
    let r := applyLoop env dry_run rest
    if env.artifactExists p = false then
      ⟨r.applied, p :: r.failed, r.mutated⟩
    else if dry_run then
      if env.directOk p then ⟨p :: r.applied, r.failed, r.mutated⟩
      else ⟨r.applied, p :: r.failed, r.mutated⟩
    else
      if apply_single_patch env p then ⟨p :: r.applied, r.failed, true⟩
      else ⟨r.applied, p :: r.failed, true⟩

/-- `apply_series_patches_impl` (`series_patches.py` lines 144–222): collect
every entry of every applicable manifest in order, then run the per-entry
loop.  (The early returns for "no series files" and "no patches" coincide
with the loop on the empty list.) -/
def apply_series_patches_impl (env : ApplyEnv) (dry_run : Bool) : RunResult :=
  applyLoop env dry_run (all_patches env.dir)

/-- Whether an entry is recorded as applied on a given run kind. -/
def entryOk (env : ApplyEnv) (dry_run : Bool) (rel : LC) : Bool :=
  let p := joinPath env.seriesDir rel
  env.artifactExists p &&
    (if dry_run then env.directOk p else apply_single_patch env p)

theorem applyLoop_spec (env : ApplyEnv) (dry_run : Bool) (l : List LC) :
    applyLoop env dry_run l =
      ⟨(l.filter (entryOk env dry_run)).map (joinPath env.seriesDir),
       (l.filter (fun rel => ! entryOk env dry_run rel)).map
         (joinPath env.seriesDir),
       !dry_run && l.any (fun rel =>
         env.artifactExists (joinPath env.seriesDir rel))⟩ := by
  induction l with
  | nil => simp [applyLoop]
  | cons rel rest ih =>
    by_cases hex : env.artifactExists (joinPath env.seriesDir rel) = false
    · simp [applyLoop, ih, entryOk, hex, List.filter_cons, List.any_cons]
    · rw [Bool.not_eq_false] at hex
      cases dry_run with
      | true =>
        by_cases hok : env.directOk (joinPath env.seriesDir rel) <;>
          simp [applyLoop, ih, entryOk, hex, hok, List.filter_cons,
            List.any_cons]
      | false =>
        by_cases hok : apply_single_patch env (joinPath env.seriesDir rel) <;>
          simp [applyLoop, ih, entryOk, hex, hok, List.filter_cons,
            List.any_cons]

end Series

namespace Series

/-- If a character is not Python-whitespace, stripping a string that starts
with it keeps that head character (so the result is non-empty). -/
theorem pyStrip_cons_of_not_space (c : Char) (cs : LC)
    (hc : pyIsSpace c = false) : ∃ t, pyStrip (c :: cs) = c :: t := by
  unfold pyStrip stripRight
  rw [List.reverse_cons, List.dropWhile_append]
  by_cases h : (cs.reverse.dropWhile pyIsSpace).isEmpty
  · simp only [h, if_pos]
    refine ⟨[], ?_⟩
    simp [List.dropWhile, hc]
  · simp only [h, if_neg, Bool.false_eq_true, not_false_iff]
    rw [List.reverse_append]
    simp [List.dropWhile, hc]

/-- A stripped non-empty line never begins with a space, so inline-comment
truncation never removes the whole line: a non-blank, non-comment line always
yields exactly one entry, namely its (possibly truncated) stripped text. -/
theorem parseSeriesLine_nonComment (l : LC) (hb : pyStrip l ≠ [])
    (hc : pyStartsWith ['#'] (pyStrip l) = false) :
    parseSeriesLine l
      = some (if containsSub [' ', '#'] (pyStrip l)
                then pyStrip (splitBeforeFirst [' ', '#'] (pyStrip l))
                else pyStrip l) := by
  obtain ⟨c, cs, hcons⟩ := List.exists_cons_of_ne_nil hb
  have hsp : pyIsSpace c = false := pyStrip_head_not_space l c cs hcons
  have hcne : (' ' = c) = False := by
    simp only [eq_iff_iff, iff_false]
    intro he
    rw [← he] at hsp
    simp [pyIsSpace] at hsp
  have hsw : pyStartsWith [' ', '#'] (c :: cs) = false := by
    simp [pyStartsWith, hcne]
  by_cases hin : containsSub [' ', '#'] (pyStrip l) = true
  · have hsplit : splitBeforeFirst [' ', '#'] (pyStrip l)
        = c :: splitBeforeFirst [' ', '#'] cs := by
      rw [hcons]
      show (if pyStartsWith [' ', '#'] (c :: cs) = true then []
            else c :: splitBeforeFirst [' ', '#'] cs)
          = c :: splitBeforeFirst [' ', '#'] cs
      rw [hsw]
      simp
    obtain ⟨t, ht⟩ :=
      pyStrip_cons_of_not_space c (splitBeforeFirst [' ', '#'] cs) hsp
    have hne : pyStrip (splitBeforeFirst [' ', '#'] (pyStrip l)) ≠ [] := by
      rw [hsplit, ht]
      simp
    unfold parseSeriesLine
    simp [hb, hc, hin, hne]
  · have hin' : containsSub [' ', '#'] (pyStrip l) = false :=
      Bool.not_eq_true _ |>.mp hin
    unfold parseSeriesLine
    simp [hb, hc, hin']

/-- A line yields nothing exactly when it is blank or a full-line comment. -/
theorem parseSeriesLine_eq_none_iff (l : LC) :
    parseSeriesLine l = none ↔
      (pyStrip l = [] ∨ pyStartsWith ['#'] (pyStrip l) = true) := by
  constructor
  · intro h
    by_cases hb : pyStrip l = []
    · exact Or.inl hb
    by_cases hc : pyStartsWith ['#'] (pyStrip l) = true
    · exact Or.inr hc
    rw [parseSeriesLine_nonComment l hb (Bool.not_eq_true _ |>.mp hc)] at h
    simp at h
  · intro h
    rcases h with h | h
    · exact parseSeriesLine_blank l h
    · exact parseSeriesLine_comment l h

/-- C2: parsing a series manifest yields exactly one entry per non-blank,
non-comment line, in file order: the loop is a per-line `filterMap`; a line
yields nothing exactly when its stripped form is blank or begins with `#`;
an inline `" #"` truncates the line before re-trimming; and the spec's
example `["a.patch", "# full comment", "", "b.patch # trailing note",
"c.patch"]` parses to `["a.patch", "b.patch", "c.patch"]`. -/
theorem claim_C2 :
    parse_series (["a.patch", "# full comment", "", "b.patch # trailing note",
        "c.patch"].map String.data)
      = ["a.patch", "b.patch", "c.patch"].map String.data
  ∧ (∀ lines, parse_series lines = lines.filterMap parseSeriesLine)
  ∧ (∀ l, parseSeriesLine l = none ↔
        (pyStrip l = [] ∨ pyStartsWith ['#'] (pyStrip l) = true))
  ∧ (∀ l, pyStrip l ≠ [] → pyStartsWith ['#'] (pyStrip l) = false →
        containsSub [' ', '#'] (pyStrip l) = true →
        parseSeriesLine l
          = some (pyStrip (splitBeforeFirst [' ', '#'] (pyStrip l)))) := by
  refine ⟨by decide, parse_series_eq_filterMap, parseSeriesLine_eq_none_iff,
    ?_⟩
  intro l hb hc hin
  rw [parseSeriesLine_nonComment l hb hc, hin]
  simp

/-- Witness for C2 at a concrete line with an inline comment. -/
theorem claim_C2_witness :
    parseSeriesLine "b.patch # trailing note".data = some "b.patch".data :=
  (claim_C2.2.2.2 "b.patch # trailing note".data (by decide) (by decide)
    (by decide)).trans (by decide)

/-- C3 concrete instance: a path listed in both manifests (and twice in the
common one) is applied each time it is listed, with no deduplication. -/
def exC3 : SeriesDirEnv :=
  ⟨some (["a.p", "b.p", "a.p"].map String.data),
   some (["b.p"].map String.data)⟩

/-- C3: the concatenated application sequence is all entries of the common
manifest in file order followed by all entries of the platform-specific
manifest in file order, each manifest included only when its file exists;
occurrence counts add up (no deduplication within or across manifests), and
a concrete duplicated path is kept at every occurrence. -/
theorem claim_C3 :
    (∀ env : SeriesDirEnv,
        all_patches env
          = env.common.elim [] parse_series
            ++ env.platformFile.elim [] parse_series)
  ∧ (∀ (env : SeriesDirEnv) (p : LC),
        (all_patches env).count p
          = (env.common.elim [] parse_series).count p
            + (env.platformFile.elim [] parse_series).count p)
  ∧ all_patches exC3 = ["a.p", "b.p", "a.p", "b.p"].map String.data := by
  have hconc : ∀ env : SeriesDirEnv,
      all_patches env
        = env.common.elim [] parse_series
          ++ env.platformFile.elim [] parse_series := by
    intro env
    obtain ⟨c, pf⟩ := env
    cases c <;> cases pf <;> simp [all_patches, get_series_files]
  refine ⟨hconc, ?_, by decide⟩
  intro env p
  rw [hconc env, List.count_append]

/-- C1 concrete instance: three entries in the common manifest; every
artifact exists; `p2` fails both apply attempts, `p1` and `p3` succeed. -/
def exC1 : ApplyEnv :=
  ⟨⟨some (["p1", "p2", "p3"].map String.data), none⟩, "s".data,
   fun _ => true,
   fun p => !decide (p = joinPath "s".data "p2".data),
   fun _ => false⟩

/-- C1 concrete instance for the missing-artifact case. -/
def exC1m : ApplyEnv :=
  ⟨⟨some (["q1"].map String.data), none⟩, "s".data,
   fun _ => false, fun _ => true, fun _ => true⟩

/-- C1: series application is continue-on-error: the applied and failed lists
are exactly the manifest-order filters of all entries by per-entry outcome
(every entry is attempted, lands in exactly one list, and order is
preserved); a missing artifact lands in the failed list and processing
continues; and on the spec's example `[p1 ok, p2 fails both, p3 ok]` the
result is `applied = [p1, p3]`, `failed = [p2]`. -/
theorem claim_C1 :
    (∀ env : ApplyEnv,
        (apply_series_patches_impl env false).applied
            = ((all_patches env.dir).filter (fun rel =>
                env.artifactExists (joinPath env.seriesDir rel) &&
                  apply_single_patch env (joinPath env.seriesDir rel))).map
                (joinPath env.seriesDir)
      ∧ (apply_series_patches_impl env false).failed
            = ((all_patches env.dir).filter (fun rel =>
                !(env.artifactExists (joinPath env.seriesDir rel) &&
                  apply_single_patch env (joinPath env.seriesDir rel)))).map
                (joinPath env.seriesDir))
  ∧ (∀ env : ApplyEnv, ∀ rel ∈ all_patches env.dir,
        env.artifactExists (joinPath env.seriesDir rel) = false →
        joinPath env.seriesDir rel
          ∈ (apply_series_patches_impl env false).failed)
  ∧ (apply_series_patches_impl exC1 false).applied
      = [joinPath "s".data "p1".data, joinPath "s".data "p3".data]
  ∧ (apply_series_patches_impl exC1 false).failed
      = [joinPath "s".data "p2".data] := by
  have hmain : ∀ env : ApplyEnv,
      (apply_series_patches_impl env false).applied
          = ((all_patches env.dir).filter (fun rel =>
              env.artifactExists (joinPath env.seriesDir rel) &&
                apply_single_patch env (joinPath env.seriesDir rel))).map
              (joinPath env.seriesDir)
    ∧ (apply_series_patches_impl env false).failed
          = ((all_patches env.dir).filter (fun rel =>
              !(env.artifactExists (joinPath env.seriesDir rel) &&
                apply_single_patch env (joinPath env.seriesDir rel)))).map
              (joinPath env.seriesDir) := by
    intro env
    have h := applyLoop_spec env false (all_patches env.dir)
    unfold apply_series_patches_impl
    rw [h]
    exact ⟨rfl, rfl⟩
  refine ⟨hmain, ?_, by decide, by decide⟩
  intro env rel hmem hex
  rw [(hmain env).2]
  exact List.mem_map_of_mem _
    (List.mem_filter.mpr ⟨hmem, by simp [hex]⟩)

/-- Witness for C1's missing-artifact clause at a concrete environment. -/
theorem claim_C1_witness :
    joinPath "s".data "q1".data
      ∈ (apply_series_patches_impl exC1m false).failed :=
  claim_C1.2.1 exC1m "q1".data (by decide) (by decide)

/-- C4 witness instance: an entry whose direct apply succeeds. -/
def exC4w : ApplyEnv :=
  ⟨⟨some (["p1"].map String.data), none⟩, "s".data,
   fun _ => true, fun _ => true, fun _ => false⟩

/-- C4 (amended): the dry-run reports success exactly for entries whose
artifact exists and whose *direct* apply would succeed — it does not account
for the three-way fallback — so dry-run success implies real-run success but
not conversely; the dry run issues no tree-mutating command. -/
theorem claim_C4 :
    (∀ env : ApplyEnv,
        (apply_series_patches_impl env true).applied
            = ((all_patches env.dir).filter (fun rel =>
                env.artifactExists (joinPath env.seriesDir rel) &&
                  env.directOk (joinPath env.seriesDir rel))).map
                (joinPath env.seriesDir)
      ∧ (apply_series_patches_impl env true).failed
            = ((all_patches env.dir).filter (fun rel =>
                !(env.artifactExists (joinPath env.seriesDir rel) &&
                  env.directOk (joinPath env.seriesDir rel)))).map
                (joinPath env.seriesDir)
      ∧ (apply_series_patches_impl env true).mutated = false)
  ∧ (∀ (env : ApplyEnv) (p : LC),
        p ∈ (apply_series_patches_impl env true).applied →
        p ∈ (apply_series_patches_impl env false).applied) := by
  have hdry : ∀ env : ApplyEnv,
      (apply_series_patches_impl env true).applied
          = ((all_patches env.dir).filter (fun rel =>
              env.artifactExists (joinPath env.seriesDir rel) &&
                env.directOk (joinPath env.seriesDir rel))).map
              (joinPath env.seriesDir)
    ∧ (apply_series_patches_impl env true).failed
          = ((all_patches env.dir).filter (fun rel =>
              !(env.artifactExists (joinPath env.seriesDir rel) &&
                env.directOk (joinPath env.seriesDir rel)))).map
              (joinPath env.seriesDir)
    ∧ (apply_series_patches_impl env true).mutated = false := by
    intro env
    have h := applyLoop_spec env true (all_patches env.dir)
    unfold apply_series_patches_impl
    rw [h]
    exact ⟨rfl, rfl, rfl⟩
  refine ⟨hdry, ?_⟩
  intro env p hp
  rw [(hdry env).1] at hp
  obtain ⟨rel, hrel, rfl⟩ := List.mem_map.mp hp
  obtain ⟨hmem, hpred⟩ := List.mem_filter.mp hrel
  have h := applyLoop_spec env false (all_patches env.dir)
  unfold apply_series_patches_impl
  rw [h]
  refine List.mem_map_of_mem _ (List.mem_filter.mpr ⟨hmem, ?_⟩)
  simp only [Bool.and_eq_true] at hpred
  simp [entryOk, apply_single_patch, hpred.1, hpred.2]

/-- Witness for C4's dry-implies-real clause at a concrete environment. -/
theorem claim_C4_witness :
    joinPath "s".data "p1".data
      ∈ (apply_series_patches_impl exC4w false).applied :=
  claim_C4.2 exC4w (joinPath "s".data "p1".data) (by decide)

/-- C4 counterexample instance: the artifact exists, the direct apply fails,
the three-way apply succeeds. -/
def exC4 : ApplyEnv :=
  ⟨⟨some (["p1"].map String.data), none⟩, "s".data,
   fun _ => true, fun _ => false, fun _ => true⟩

/-- C4 counterexample: for an entry whose artifact file exists, whose direct
apply fails and whose three-way apply succeeds, the real run applies it while
the dry run reports it as failed — the claimed "dry-run success iff real
apply success" equivalence is false. -/
theorem claim_C4_counterexample :
    exC4.artifactExists (joinPath "s".data "p1".data) = true
  ∧ (apply_series_patches_impl exC4 false).applied
      = [joinPath "s".data "p1".data]
  ∧ (apply_series_patches_impl exC4 true).applied = []
  ∧ (apply_series_patches_impl exC4 true).failed
      = [joinPath "s".data "p1".data]
  ∧ ¬((joinPath "s".data "p1".data
        ∈ (apply_series_patches_impl exC4 true).applied)
      ↔ (joinPath "s".data "p1".data
        ∈ (apply_series_patches_impl exC4 false).applied)) := by
  decide

end Series

namespace Extract

/-- File-change kinds, from `extract/utils.py`'s `FileOperation` (the module
itself is outside the embedded core; only these three tags are consumed by
`extract_patch.py`). -/
inductive FileOperation where
  | add
  | modify
  | delete
  deriving DecidableEq, Repr

/-- A parsed per-file patch as consumed by `extract_single_file_patch`:
`operation`, `is_binary` and `patch_content` are the fields the source
reads. -/
structure FilePatch where
  operation : FileOperation
  is_binary : Bool
  patch_content : LC
  deriving DecidableEq, Repr

/-- One tag per `return` site of `extract_single_file_patch`
(`extract_patch.py` lines 40–120), in source order:
`baseCommitNotFound` = "Base commit not found", `diffFailed` = "Failed to
get diff", `fileNotFound` = "File does not exist in base or working
directory", `noChanges` = "No changes found", `emptyNewFileDiff` = "Failed
to generate diff for new file", `parseFailed` = "Failed to parse diff",
`unexpectedDiff` = "Unexpected diff output", `cancelled` = "Cancelled by
user", `markerFailed` = "Failed to create deletion marker",
`binaryUnsupported` = "Binary files not supported", `noContent` = "No patch
content", `writeFailed` = "Failed to write patch". -/
inductive ExtractError where
  | baseCommitNotFound
  | diffFailed
  | fileNotFound
  | noChanges
  | emptyNewFileDiff
  | parseFailed
  | unexpectedDiff
  | cancelled
  | markerFailed
  | binaryUnsupported
  | noContent
  | writeFailed
  deriving DecidableEq, Repr

/-- Store-side effects of an extraction: `write_patch_file` persists the
parsed patch content at the artifact path for the source path, and
`create_deletion_marker` writes the deletion sentinel.  (Both helpers live
in `extract/utils.py`, outside the embedded core; the artifact path is the
deterministic image of the source path, modelled by the source path
itself.) -/
inductive ExtractEffect where
  | wrotePatch (path content : LC)
  | wroteMarker (path : LC)
  deriving DecidableEq, Repr

/-- Result of `extract_single_file_patch`: the source returns
`(success, error_message)`; `error = none` is success, and `effects` records
what was written to the patch store. -/
structure ExtractOutcome where
  error : Option ExtractError
  effects : List ExtractEffect
  deriving DecidableEq, Repr

/-- Environment of one `extract_single_file_patch` call.  External git
invocations and the helpers of `extract/utils.py` are modelled as fields:
`commitValid` — `validate_commit_exists(base)`;
`diffRc`/`diffOut` — return code and stdout of `git diff base -- path`;
`baseExists` — `git cat-file -e base:path` succeeding;
`workingExists` — `(chromium_src / path).exists()`;
`noIndexOut` — stdout of `git diff --no-index /dev/null path`;
`parseDiff` — `parse_diff_output`, an insertion-ordered mapping from file
path to parsed patch;
`patchFileExists` — the artifact for `path` already exists;
`force` — the `force` argument; `confirmAnswer` — `click.confirm(...)`;
`writeSucceeds` — `write_patch_file` succeeding;
`markerSucceeds` — `create_deletion_marker` succeeding. -/
structure ExtractEnv where
  commitValid : Bool
  diffRc : Nat
  diffOut : LC
  baseExists : Bool
  workingExists : Bool
  noIndexOut : LC
  parseDiff : LC → List (LC × FilePatch)
  patchFileExists : Bool
  force : Bool
  confirmAnswer : Bool
  writeSucceeds : Bool
  markerSucceeds : Bool

/-- `extract_patch.py` lines 95–120: overwrite confirmation, then the
operation dispatch — deletion marker for DELETE, rejection of binary and
empty content, and the patch write. -/
def handlePatch (env : ExtractEnv) (chromium_path : LC) (patch : FilePatch) :
    ExtractOutcome :=
  if env.patchFileExists && !env.force && !env.confirmAnswer then
    ⟨some .cancelled, []⟩
  else if patch.operation = .delete then
    if env.markerSucceeds then ⟨none, [.wroteMarker chromium_path]⟩
    else ⟨some .markerFailed, []⟩
  else if patch.is_binary then ⟨some .binaryUnsupported, []⟩
  else if patch.patch_content = [] then ⟨some .noContent, []⟩
  else if env.writeSucceeds then
    ⟨none, [.wrotePatch chromium_path patch.patch_content]⟩
  else ⟨some .writeFailed, []⟩

/-- `extract_patch.py` lines 80–93: parse the diff text, reject an empty
parse, and select the requested file's patch — directly when present, as the
single parsed result when the requested key is absent and exactly one result
exists, and `unexpectedDiff` otherwise. -/
def extractParsePhase (env : ExtractEnv) (chromium_path : LC) (stdout : LC) :
    ExtractOutcome :=
  let file_patches := env.parseDiff stdout
  if file_patches = [] then ⟨some .parseFailed, []⟩
  else
    match file_patches.lookup chromium_path with
    | some patch => handlePatch env chromium_path patch
    | none =>
      match file_patches with
      | [(_, patch)] => handlePatch env chromium_path patch
      | _ => ⟨some .unexpectedDiff, []⟩

/-- `extract_single_file_patch` (`extract_patch.py` lines 20–120).  The
empty-diff block (lines 53–78) distinguishes existence in base vs. working
tree; note that when the path exists only at base the block has no branch
and control falls through to parsing with the still-empty diff output. -/
def extract_single_file_patch (env : ExtractEnv) (chromium_path : LC) :
    ExtractOutcome :=
  if !env.commitValid then ⟨some .baseCommitNotFound, []⟩
  else if env.diffRc ≠ 0 then ⟨some .diffFailed, []⟩
  else if pyStrip env.diffOut = [] then
    if !env.baseExists && !env.workingExists then ⟨some .fileNotFound, []⟩
    else if env.baseExists && env.workingExists then ⟨some .noChanges, []⟩
    else if !env.baseExists && env.workingExists then
      if pyStrip env.noIndexOut = [] then ⟨some .emptyNewFileDiff, []⟩
      else extractParsePhase env chromium_path env.noIndexOut
    else extractParsePhase env chromium_path env.diffOut
  else extractParsePhase env chromium_path env.diffOut

end Extract

namespace Extract

/-- C5 counterexample instance: base commit valid, `git diff` returns an
empty diff, the path exists at base but not in the working tree, and the
diff parser yields nothing from the empty text. -/
def envC5x : ExtractEnv :=
  ⟨true, 0, [], true, false, [], fun _ => [], false, false, false, true,
   true⟩

/-- C5 counterexample: when the diff is empty and the path exists only at
base, extraction does not treat the path as a deletion candidate — there is
no branch for this case, so control falls through to parsing the empty diff
text and extraction fails with the parse error, writing nothing. -/
theorem claim_C5_counterexample :
    envC5x.baseExists = true
  ∧ envC5x.workingExists = false
  ∧ pyStrip envC5x.diffOut = []
  ∧ extract_single_file_patch envC5x "f.cc".data
      = ⟨some ExtractError.parseFailed, []⟩
  ∧ (extract_single_file_patch envC5x "f.cc".data).effects = [] := by
  decide

/-- C5 (amended): on an empty diff, existence decides the outcome — in
neither place: not-found error; in both: no-changes error; only in the
working tree: extraction proceeds on the synthesized empty-baseline diff
(or fails when even that synthesized diff is blank); only at base: control
falls through to parsing the empty diff text, which fails with a parse
error rather than producing a deletion candidate. -/
theorem claim_C5 : ∀ (env : ExtractEnv) (path : LC),
    env.commitValid = true → env.diffRc = 0 → pyStrip env.diffOut = [] →
    ((env.baseExists = false → env.workingExists = false →
        extract_single_file_patch env path = ⟨some .fileNotFound, []⟩)
  ∧ (env.baseExists = true → env.workingExists = true →
        extract_single_file_patch env path = ⟨some .noChanges, []⟩)
  ∧ (env.baseExists = false → env.workingExists = true →
        pyStrip env.noIndexOut ≠ [] →
        extract_single_file_patch env path
          = extractParsePhase env path env.noIndexOut)
  ∧ (env.baseExists = false → env.workingExists = true →
        pyStrip env.noIndexOut = [] →
        extract_single_file_patch env path = ⟨some .emptyNewFileDiff, []⟩)
  ∧ (env.baseExists = true → env.workingExists = false →
        env.parseDiff env.diffOut = [] →
        extract_single_file_patch env path = ⟨some .parseFailed, []⟩)) := by
  intro env path hcv hrc hblank
  refine ⟨?_, ?_, ?_, ?_, ?_⟩
  · intro hb hw
    simp [extract_single_file_patch, hcv, hrc, hblank, hb, hw]
  · intro hb hw
    simp [extract_single_file_patch, hcv, hrc, hblank, hb, hw]
  · intro hb hw hni
    simp [extract_single_file_patch, hcv, hrc, hblank, hb, hw, hni]
  · intro hb hw hni
    simp [extract_single_file_patch, hcv, hrc, hblank, hb, hw, hni]
  · intro hb hw hparse
    simp [extract_single_file_patch, extractParsePhase, hcv, hrc, hblank,
      hb, hw, hparse]

/-- C5 witness instance: the path exists neither at base nor in the working
tree. -/
def envC5w : ExtractEnv :=
  ⟨true, 0, [], false, false, [], fun _ => [], false, false, false, true,
   true⟩

/-- Witness for C5 at the exists-in-neither-place case. -/
theorem claim_C5_witness :
    extract_single_file_patch envC5w "f.cc".data
      = ⟨some ExtractError.fileNotFound, []⟩ :=
  (claim_C5 envC5w "f.cc".data rfl rfl rfl).1 rfl rfl

/-- C6 counterexample instance: the diff parser reports two files, and the
requested path is one of them. -/
def envC6x : ExtractEnv :=
  ⟨true, 0, "d".data, true, true, [],
   fun _ => [("f.cc".data, ⟨.modify, false, "c1".data⟩),
             ("g.cc".data, ⟨.modify, false, "c2".data⟩)],
   false, false, false, true, true⟩

/-- C6 counterexample: with two parsed results among which the requested
path appears, extraction does not fail with the ambiguity error — it picks
the requested path's entry and succeeds, refuting "accept only if exactly
one parsed result is present". -/
theorem claim_C6_counterexample :
    (envC6x.parseDiff envC6x.diffOut).length = 2
  ∧ extract_single_file_patch envC6x "f.cc".data
      = ⟨none, [ExtractEffect.wrotePatch "f.cc".data "c1".data]⟩
  ∧ (extract_single_file_patch envC6x "f.cc".data).error
      ≠ some ExtractError.unexpectedDiff := by
  decide

/-- C6 (amended): after parsing, the requested path's entry is selected
whenever the parsed mapping contains the requested path, regardless of how
many files were reported; only when the requested path is absent does the
count matter — a single result is accepted in its place, and every other
multi-file case fails with the ambiguity error (an empty parse fails
earlier, with the parse error). -/
theorem claim_C6 : ∀ (env : ExtractEnv) (path stdout : LC),
    ((env.parseDiff stdout = [] →
        extractParsePhase env path stdout = ⟨some .parseFailed, []⟩)
  ∧ (∀ p, (env.parseDiff stdout).lookup path = some p →
        extractParsePhase env path stdout = handlePatch env path p)
  ∧ (∀ k p, (env.parseDiff stdout).lookup path = none →
        env.parseDiff stdout = [(k, p)] →
        extractParsePhase env path stdout = handlePatch env path p)
  ∧ ((env.parseDiff stdout).lookup path = none →
        2 ≤ (env.parseDiff stdout).length →
        extractParsePhase env path stdout = ⟨some .unexpectedDiff, []⟩)) := by
  intro env path stdout
  refine ⟨?_, ?_, ?_, ?_⟩
  · intro hp
    simp [extractParsePhase, hp]
  · intro p hlk
    have hne : env.parseDiff stdout ≠ [] := by
      intro h
      rw [h] at hlk
      simp [List.lookup] at hlk
    simp [extractParsePhase, hne, hlk]
  · intro k p hlk hsingle
    have hkne : (path == k) = false := by
      by_contra hkk
      rw [Bool.not_eq_false] at hkk
      rw [hsingle] at hlk
      simp [List.lookup, hkk] at hlk
    simp [extractParsePhase, hsingle, List.lookup, hkne]
  · intro hlk hlen
    cases hl : env.parseDiff stdout with
    | nil => rw [hl] at hlen; simp at hlen
    | cons a rest =>
      cases rest with
      | nil => rw [hl] at hlen; simp at hlen
      | cons b rest2 =>
        obtain ⟨ka, pa⟩ := a
        obtain ⟨kb, pb⟩ := b
        rw [hl] at hlk
        simp [extractParsePhase, hl, hlk]

end Extract

namespace Extract

/-- Witness for C6 at the two-result instance where the requested path is
among the parsed results. -/
theorem claim_C6_witness :
    extractParsePhase envC6x "f.cc".data "d".data
      = handlePatch envC6x "f.cc".data ⟨.modify, false, "c1".data⟩ :=
  (claim_C6 envC6x "f.cc".data "d".data).2.1 ⟨.modify, false, "c1".data⟩
    (by decide)

/-- The external diff engine (git) consumed by the round trip: `diff` maps
(base content, working content) to unified-diff text (`git diff base --
path`), `applyPatch` applies stored diff text to a base content
(`git apply` on the artifact, as invoked by `apply_single_patch`).  Its
defining contract — applying `diff a b` to `a` reproduces `b` — is the
hypothesis of the round-trip theorem, not something this code base can
influence. -/
structure DiffEngine where
  diff : LC → LC → LC
  applyPatch : LC → LC → Option LC

/-- C9: round trip.  For a non-binary single-file change, extraction stores
the diff engine's output verbatim as the artifact content (the parser
returns the full diff text for a single-file diff, per the spec's
FilePatch model), so applying the stored artifact against the same base
reproduces the working-tree content byte-identically whenever the engine
satisfies its diff/apply inverse contract. -/
theorem claim_C9 : ∀ (E : DiffEngine) (env : ExtractEnv)
    (path base new : LC),
    (∀ a b, E.applyPatch (E.diff a b) a = some b) →
    env.commitValid = true → env.diffRc = 0 →
    env.diffOut = E.diff base new →
    pyStrip (E.diff base new) ≠ [] →
    env.parseDiff (E.diff base new)
      = [(path, ⟨.modify, false, E.diff base new⟩)] →
    env.patchFileExists = false →
    env.writeSucceeds = true →
    extract_single_file_patch env path
        = ⟨none, [.wrotePatch path (E.diff base new)]⟩
  ∧ (∀ content, ExtractEffect.wrotePatch path content
        ∈ (extract_single_file_patch env path).effects →
      E.applyPatch content base = some new) := by
  intro E env path base new hinv hcv hrc hdo hps hparse hpfe hws
  have hne : E.diff base new ≠ [] := by
    intro h
    rw [h] at hps
    exact hps rfl
  have hmain : extract_single_file_patch env path
      = ⟨none, [.wrotePatch path (E.diff base new)]⟩ := by
    simp [extract_single_file_patch, extractParsePhase, handlePatch,
      hcv, hrc, hdo, hps, hparse, hpfe, hws, hne, List.lookup]
  refine ⟨hmain, ?_⟩
  intro content hc
  rw [hmain] at hc
  simp only [List.mem_singleton, ExtractEffect.wrotePatch.injEq] at hc
  rw [hc.2]
  exact hinv base new

/-- C9 witness engine: the synthetic full-content engine (its diff is the
new content, its apply returns the stored text), which satisfies the
inverse contract. -/
def toyEngine : DiffEngine := ⟨fun _ b => b, fun d _ => some d⟩

/-- C9 witness environment for extracting `f.cc` with base content "base"
and working content "newtext" under `toyEngine`. -/
def envC9 : ExtractEnv :=
  ⟨true, 0, "newtext".data, true, true, [],
   fun t => [("f.cc".data, ⟨.modify, false, t⟩)],
   false, false, false, true, true⟩

/-- Witness for C9 at a concrete engine, base and working content. -/
theorem claim_C9_witness :
    extract_single_file_patch envC9 "f.cc".data
        = ⟨none, [ExtractEffect.wrotePatch "f.cc".data "newtext".data]⟩
  ∧ toyEngine.applyPatch "newtext".data "base".data
      = some "newtext".data := by
  have h := claim_C9 toyEngine envC9 "f.cc".data "base".data "newtext".data
    (fun a b => rfl) rfl rfl rfl (by decide) rfl rfl rfl
  exact ⟨h.1, h.2 "newtext".data (by rw [h.1]; decide)⟩

end Extract

namespace Feature

/-!
## Feature index — `feature.py`

Python strings compare by code point; `pyLe` is that lexicographic order,
executable so that Python's `sorted` is an `insertionSort` by it.
-/

/-- Python string `<=` (lexicographic by code point). -/
def pyLe : LC → LC → Bool
  | [], _ => true
  | _ :: _, [] => false
  | c :: cs, d :: ds => if c = d then pyLe cs ds else decide (c < d)

/-- `pyLe` as a relation, for the sorting lemmas. -/
def pyLeRel (a b : LC) : Prop := pyLe a b = true

instance : DecidableRel pyLeRel := fun a b =>
  inferInstanceAs (Decidable (pyLe a b = true))

theorem pyLe_total (a : LC) : ∀ b, pyLe a b = true ∨ pyLe b a = true := by
  induction a with
  | nil =>
    intro b
    left
    simp [pyLe]
  | cons c cs ih =>
    intro b
    cases b with
    | nil =>
      right
      simp [pyLe]
    | cons d ds =>
      by_cases hcd : c = d
      · subst hcd
        rcases ih ds with h | h
        · left
          simp [pyLe, h]
        · right
          simp [pyLe, h]
      · rcases lt_or_gt_of_ne hcd with h | h
        · left
          simp [pyLe, hcd, h]
        · right
          simp [pyLe, Ne.symm hcd, h]

theorem pyLe_trans (a : LC) : ∀ b c, pyLe a b = true → pyLe b c = true →
    pyLe a c = true := by
  induction a with
  | nil =>
    intro b c _ _
    simp [pyLe]
  | cons x xs ih =>
    intro b c hab hbc
    cases b with
    | nil => simp [pyLe] at hab
    | cons y ys =>
      cases c with
      | nil => simp [pyLe] at hbc
      | cons z zs =>
        by_cases hxy : x = y <;> by_cases hyz : y = z
        · subst hxy
          subst hyz
          simp [pyLe] at hab hbc ⊢
          exact ih ys zs hab hbc
        · subst hxy
          simp [pyLe, hyz] at hbc
          simpa [pyLe, hyz] using hbc
        · subst hyz
          simp [pyLe, hxy] at hab
          simpa [pyLe, hxy] using hab
        · simp [pyLe, hxy] at hab
          simp [pyLe, hyz] at hbc
          have hxz : x < z := lt_trans hab hbc
          simp [pyLe, ne_of_lt hxz, hxz]

instance : IsTotal LC pyLeRel := ⟨fun a b => pyLe_total a b⟩

instance : IsTrans LC pyLeRel := ⟨fun a b c => pyLe_trans a b c⟩

/-- Python `sorted(list)`. -/
def pySorted (l : List LC) : List LC := l.insertionSort pyLeRel

/-- Python `sorted(set_a | set_b)` (`feature.py` lines 71 and 87): the
ascending duplicate-free enumeration of the union of the two file sets. -/
def sortedUnion (a b : List LC) : List LC := pySorted (a ++ b).dedup

theorem sortedUnion_toFinset (a b : List LC) :
    (sortedUnion a b).toFinset = a.toFinset ∪ b.toFinset := by
  unfold sortedUnion pySorted
  have hperm := List.perm_insertionSort pyLeRel ((a ++ b).dedup)
  ext x
  simp [List.mem_toFinset, hperm.mem_iff, List.mem_dedup, List.mem_append]

theorem sortedUnion_sorted (a b : List LC) :
    (sortedUnion a b).Sorted pyLeRel :=
  List.sorted_insertionSort pyLeRel _

theorem sortedUnion_nodup (a b : List LC) : (sortedUnion a b).Nodup :=
  (List.perm_insertionSort pyLeRel ((a ++ b).dedup)).nodup_iff.mpr
    (List.nodup_dedup _)

/-- One persisted feature entry: `{description, files}`. -/
structure FeatureEntry where
  description : LC
  files : List LC
  deriving DecidableEq, Repr

/-- The persisted features document: `{version, features}`, with the
name-keyed mapping as an insertion-ordered association list (Python dicts
preserve insertion order, and `yaml.safe_dump(..., sort_keys=False)`
serializes in that order). -/
structure FeaturesDoc where
  version : Option LC
  features : List (LC × FeatureEntry)
  deriving DecidableEq, Repr

/-- The default document `{"version": "1.0", "features": {}}` used when the
features file is missing or loads empty (`feature.py` line 53). -/
def defaultDoc : FeaturesDoc := ⟨some "1.0".data, []⟩

/-- One tag per validation/input failure of `add_or_update_feature`
(`feature.py` lines 36–50). -/
inductive FeatureError where
  | invalidName
  | invalidDescription
  | noChangedFiles
  deriving DecidableEq, Repr

/-- Modelled from the spec: the closed vocabulary of recognized description
prefixes (`VALID_PREFIXES` of `feature/validation.py`, which is not under
`src/`); the spec names "feat:", "fix:", "refactor:" as the example set and
leaves the exact enumeration as configuration. -/
def VALID_PREFIXES : List LC := ["feat:", "fix:", "refactor:"].map String.data

/-- A character allowed in a feature name: lowercase letter, digit, or
hyphen. -/
def validNameChar (c : Char) : Bool :=
  ('a' ≤ c && c ≤ 'z') || ('0' ≤ c && c ≤ '9') || c = '-'

/-- Modelled from the spec: `validate_feature_name` of
`feature/validation.py` (not under `src/`): the name must be non-empty and
restricted to lowercase letters, digits, and hyphens. -/
def validate_feature_name (name : LC) : Bool :=
  !name.isEmpty && name.all validNameChar

/-- Modelled from the spec: `validate_description` of
`feature/validation.py` (not under `src/`): the description must begin with
one of the recognized prefixes. -/
def validate_description (d : LC) : Bool :=
  VALID_PREFIXES.any (fun p => pyStartsWith p d)

/-- In-place replacement of the value at a key (Python
`features["features"][name] = ...` on an existing key keeps its position
and leaves every other entry untouched). -/
def updateAssoc (k : LC) (v : FeatureEntry) :
    List (LC × FeatureEntry) → List (LC × FeatureEntry)
  | [] => []
  | (k0, v0) :: rest =>
    if k0 = k then (k0, v) :: rest else (k0, v0) :: updateAssoc k v rest

/-- `add_or_update_feature` (`feature.py` lines 16–111): validate the name
and description, require a non-empty changed-files set (the output of
`get_commit_changed_files(commit)`, supplied here as `changed_files`), load
the document (default when missing/empty), then merge into an existing
feature (files = sorted union, description replaced) or append a new one
(files = sorted changed list).  Logging is omitted; the returned document
is what the source serializes back to the features file. -/
def add_or_update_feature (doc : Option FeaturesDoc) (feature_name : LC)
    (changed_files : List LC) (description : LC) :
    Except FeatureError FeaturesDoc :=
  if !validate_feature_name feature_name then .error .invalidName
  else if !validate_description description then .error .invalidDescription
  else if changed_files = [] then .error .noChangedFiles
  else
    let d := doc.getD defaultDoc
    match d.features.lookup feature_name with
    | some existing =>
      .ok ⟨d.version,
           updateAssoc feature_name
             ⟨description, sortedUnion existing.files changed_files⟩
             d.features⟩
    | none =>
      .ok ⟨d.version,
           d.features
             ++ [(feature_name, ⟨description, pySorted changed_files⟩)]⟩

/-- The persisted store across one call: the features file is rewritten
only on the success path (`feature.py` line 102 is reached only after every
validation has passed), so on failure the stored document is unchanged. -/
def runAddOrUpdate (store : Option FeaturesDoc) (feature_name : LC)
    (changed_files : List LC) (description : LC) :
    (Bool × Option FeatureError) × Option FeaturesDoc :=
  match add_or_update_feature store feature_name changed_files description with
  | .ok d => ((true, none), some d)
  | .error e => ((false, some e), store)

theorem updateAssoc_lookup_self (k : LC) (v : FeatureEntry) :
    ∀ (l : List (LC × FeatureEntry)) (w : FeatureEntry),
      l.lookup k = some w → (updateAssoc k v l).lookup k = some v := by
  intro l
  induction l with
  | nil =>
    intro w h
    simp [List.lookup] at h
  | cons kv rest ih =>
    obtain ⟨k0, v0⟩ := kv
    intro w h
    by_cases hk : k0 = k
    · subst hk
      simp [updateAssoc, List.lookup]
    · have hbeq : (k == k0) = false := by
        simp [Ne.symm hk]
      simp only [updateAssoc, if_neg hk, List.lookup, hbeq] at h ⊢
      exact ih w h

theorem updateAssoc_lookup_ne (k other : LC) (v : FeatureEntry)
    (hne : other ≠ k) :
    ∀ l : List (LC × FeatureEntry),
      (updateAssoc k v l).lookup other = l.lookup other := by
  intro l
  induction l with
  | nil => rfl
  | cons kv rest ih =>
    obtain ⟨k0, v0⟩ := kv
    by_cases hk : k0 = k
    · subst hk
      have hbeq : (other == k0) = false := by
        simp [hne]
      simp [updateAssoc, List.lookup, hbeq]
    · simp only [updateAssoc, if_neg hk, List.lookup]
      cases hbeq : other == k0 <;> simp [hbeq, ih]

theorem lookup_append_single_ne (k other : LC) (v : FeatureEntry)
    (hne : other ≠ k) :
    ∀ l : List (LC × FeatureEntry),
      (l ++ [(k, v)]).lookup other = l.lookup other := by
  intro l
  induction l with
  | nil =>
    have hbeq : (other == k) = false := by
      simp [hne]
    simp [List.lookup, hbeq]
  | cons kv rest ih =>
    obtain ⟨k0, v0⟩ := kv
    simp only [List.cons_append, List.lookup]
    cases hbeq : other == k0 <;> simp [hbeq, ih]

end Feature

namespace Feature

/-- C7/C8 concrete document: feature `llm-chat` owning `{a.cc, b.cc}`. -/
def exDoc : FeaturesDoc :=
  ⟨some "1.0".data,
   [("llm-chat".data, ⟨"feat: chat".data, ["a.cc", "b.cc"].map String.data⟩)]⟩

/-- C7: a successful `addOrUpdate` on an existing feature sets the persisted
files to the sorted duplicate-free union of the existing files and the
commit's changed files (never a destructive replace) and replaces the
description; `sortedUnion` really is the set union, sorted without
duplicates; concretely, `llm-chat` with `{a.cc, b.cc}` updated by a commit
touching `{b.cc, c.cc}` yields files `[a.cc, b.cc, c.cc]` and the new
description. -/
theorem claim_C7 :
    (∀ (doc : FeaturesDoc) (name desc : LC) (changed : List LC)
        (existing : FeatureEntry),
      doc.features.lookup name = some existing →
      validate_feature_name name = true →
      validate_description desc = true →
      changed ≠ [] →
      add_or_update_feature (some doc) name changed desc
          = Except.ok ⟨doc.version,
              updateAssoc name ⟨desc, sortedUnion existing.files changed⟩
                doc.features⟩
        ∧ (updateAssoc name ⟨desc, sortedUnion existing.files changed⟩
              doc.features).lookup name
            = some ⟨desc, sortedUnion existing.files changed⟩)
  ∧ (∀ a b : List LC,
        (sortedUnion a b).toFinset = a.toFinset ∪ b.toFinset
      ∧ (sortedUnion a b).Sorted pyLeRel
      ∧ (sortedUnion a b).Nodup)
  ∧ add_or_update_feature (some exDoc) "llm-chat".data
        (["b.cc", "c.cc"].map String.data) "feat: update".data
      = Except.ok ⟨some "1.0".data,
          [("llm-chat".data,
            ⟨"feat: update".data,
             ["a.cc", "b.cc", "c.cc"].map String.data⟩)]⟩ := by
  refine ⟨?_, ?_, by rfl⟩
  · intro doc name desc changed existing hlk hvn hvd hch
    constructor
    · simp [add_or_update_feature, hvn, hvd, hch, Option.getD, hlk]
    · exact updateAssoc_lookup_self name _ doc.features existing hlk
  · intro a b
    exact ⟨sortedUnion_toFinset a b, sortedUnion_sorted a b,
      sortedUnion_nodup a b⟩

/-- Witness for C7 at the spec's concrete feature-merge example. -/
theorem claim_C7_witness :
    add_or_update_feature (some exDoc) "llm-chat".data
        (["b.cc", "c.cc"].map String.data) "feat: update".data
      = Except.ok ⟨exDoc.version,
          updateAssoc "llm-chat".data
            ⟨"feat: update".data,
             sortedUnion (["a.cc", "b.cc"].map String.data)
               (["b.cc", "c.cc"].map String.data)⟩
            exDoc.features⟩ :=
  (claim_C7.1 exDoc "llm-chat".data "feat: update".data
    (["b.cc", "c.cc"].map String.data)
    ⟨"feat: chat".data, ["a.cc", "b.cc"].map String.data⟩
    (by decide) (by decide) (by decide) (by decide)).1

/-- C8: every name that is empty or contains a character outside lowercase
letters, digits, and hyphens is rejected, as is every description lacking a
recognized prefix; on rejection the persisted document is unchanged.
Concretely, `"My Feature"` and the prefix-less description `"update chat"`
are rejected without modifying the store. -/
theorem claim_C8 :
    (∀ (store : Option FeaturesDoc) (name desc : LC) (changed : List LC),
        validate_feature_name name = false →
        runAddOrUpdate store name changed desc
          = ((false, some FeatureError.invalidName), store))
  ∧ (∀ (store : Option FeaturesDoc) (name desc : LC) (changed : List LC),
        validate_feature_name name = true →
        validate_description desc = false →
        runAddOrUpdate store name changed desc
          = ((false, some FeatureError.invalidDescription), store))
  ∧ validate_feature_name "My Feature".data = false
  ∧ validate_description "update chat".data = false
  ∧ runAddOrUpdate (some exDoc) "My Feature".data
        (["a.cc"].map String.data) "feat: update".data
      = ((false, some FeatureError.invalidName), some exDoc)
  ∧ runAddOrUpdate (some exDoc) "llm-chat".data
        (["a.cc"].map String.data) "update chat".data
      = ((false, some FeatureError.invalidDescription), some exDoc) := by
  refine ⟨?_, ?_, by decide, by decide, by decide, by decide⟩
  · intro store name desc changed hvn
    simp [runAddOrUpdate, add_or_update_feature, hvn]
  · intro store name desc changed hvn hvd
    simp [runAddOrUpdate, add_or_update_feature, hvn, hvd]

/-- Witness for C8 at the invalid name `"My Feature"`. -/
theorem claim_C8_witness :
    runAddOrUpdate (some exDoc) "My Feature".data
        (["x.cc"].map String.data) "feat: u".data
      = ((false, some FeatureError.invalidName), some exDoc) :=
  claim_C8.1 (some exDoc) "My Feature".data "feat: u".data
    (["x.cc"].map String.data) (by decide)

/-- C10: frame property — a successful `addOrUpdate` changes only the entry
for the given name: the document's version and every other feature's stored
entry (description and files) are preserved by the load-modify-save
cycle. -/
theorem claim_C10 : ∀ (doc : FeaturesDoc) (name desc : LC)
    (changed : List LC) (d' : FeaturesDoc),
    add_or_update_feature (some doc) name changed desc = Except.ok d' →
    d'.version = doc.version
  ∧ ∀ other, other ≠ name →
      d'.features.lookup other = doc.features.lookup other := by
  intro doc name desc changed d' h
  unfold add_or_update_feature at h
  cases hvn : validate_feature_name name with
  | false => simp [hvn] at h
  | true =>
  cases hvd : validate_description desc with
  | false => simp [hvn, hvd] at h
  | true =>
  by_cases hch : changed = []
  · simp [hvn, hvd, hch] at h
  · simp only [hvn, hvd, if_neg hch, Bool.not_true, Bool.false_eq_true,
      if_false, Option.getD] at h
    cases hlk : doc.features.lookup name with
    | some existing =>
      rw [hlk] at h
      simp only [Except.ok.injEq] at h
      subst h
      refine ⟨rfl, ?_⟩
      intro other hne
      exact updateAssoc_lookup_ne name other _ hne doc.features
    | none =>
      rw [hlk] at h
      simp only [Except.ok.injEq] at h
      subst h
      refine ⟨rfl, ?_⟩
      intro other hne
      exact lookup_append_single_ne name other _ hne doc.features

/-- C10 witness document with a second feature that must be untouched. -/
def exDoc2 : FeaturesDoc :=
  ⟨some "1.0".data,
   [("llm-chat".data, ⟨"feat: chat".data, ["a.cc", "b.cc"].map String.data⟩),
    ("other-f".data, ⟨"fix: o".data, ["z.cc"].map String.data⟩)]⟩

/-- The document produced by the C10 witness update. -/
def exDoc2' : FeaturesDoc :=
  ⟨some "1.0".data,
   [("llm-chat".data,
     ⟨"feat: update".data, ["a.cc", "b.cc", "c.cc"].map String.data⟩),
    ("other-f".data, ⟨"fix: o".data, ["z.cc"].map String.data⟩)]⟩

/-- Witness for C10: updating `llm-chat` preserves the version and the
entry of `other-f`. -/
theorem claim_C10_witness :
    exDoc2'.version = exDoc2.version
  ∧ exDoc2'.features.lookup "other-f".data
      = exDoc2.features.lookup "other-f".data :=
  have h := claim_C10 exDoc2 "llm-chat".data "feat: update".data
    (["b.cc", "c.cc"].map String.data) exDoc2' (by rfl)
  ⟨h.1, h.2 "other-f".data (by decide)⟩

end Feature
